import Mathlib

/-!
Verification of the root-cause-analysis engine
(`ai-models/rca-engine/rca_engine.py`) against its specification.

The Python code is shallowly embedded below:
* pandas timestamp cells become `TsVal` (a raw string before
  `pd.to_datetime`, an integer epoch value — seconds — afterwards);
  the parsing performed by `pd.to_datetime` is an arbitrary function
  `parse : String → Int` threaded through the definitions;
* dataframes become lists of row structures (one structure per table);
* floats become `ℚ`; `np.std` is a square root, so instead of the
  irrational `mean + 3·std` we carry `(mean, var)` and express the
  comparisons `v > mean + k·std` by the equivalent rational conditions
  `v - mean > 0 ∧ (v - mean)^2 > k^2·var` (for `var > 0`);
* the `networkx.DiGraph` becomes `Digraph`: node and edge lists kept in
  insertion order without duplicates, which is exactly the iteration
  order of the underlying networkx adjacency dicts;
* Python's stable `sorted` (and its `reverse=True` variant) becomes
  `List.insertionSort` with the corresponding total preorder, which is
  stable in the same direction.
-/

set_option allowUnsafeReducibility true
attribute [semireducible] Rat.mul Rat.add Rat.inv Rat.sub Rat.div Rat.neg

namespace RCA

/-- A timestamp cell: either a raw (unparsed) value or a datetime,
modelled as an integer number of seconds since the epoch. -/
inductive TsVal where
  | raw (s : String)
  | dt (t : Int)
deriving DecidableEq

/-- Model of `pd.to_datetime` applied to one cell. -/
def convertTs (parse : String → Int) : TsVal → TsVal
  | .raw s => .dt (parse s)
  | .dt t => .dt t

/-- The integer value a cell has after conversion. -/
def tsVal (parse : String → Int) : TsVal → Int
  | .raw s => parse s
  | .dt t => t

/-- Tests whether `pat` is a prefix of `s` (character lists). -/
def charsHavePre : List Char → List Char → Bool
  | [], _ => true
  | _ :: _, [] => false
  | c :: pt, d :: st => c = d && charsHavePre pt st

/-- Tests whether `pat` occurs somewhere inside `s` (character lists). -/
def charsContain (s pat : List Char) : Bool :=
  match s with
  | [] => pat.isEmpty
  | _ :: t => charsHavePre pat s || charsContain t pat

/-- Model of Python's `pat in s` substring test. -/
def strContains (s pat : String) : Bool := charsContain s.data pat.data

/-- Model of Python's `str.lower()` (inputs here are ASCII). -/
def lowerStr (s : String) : String := ⟨s.data.map Char.toLower⟩

/-- Model of Python's `s[:n]` on a string (slice by code points). -/
def strTake (s : String) (n : Nat) : String := ⟨s.data.take n⟩

/-- Characters after the last `'/'`, i.e. Python's `s.split('/')[-1]`. -/
def lastSegAux : List Char → List Char → List Char
  | [], acc => acc
  | c :: t, acc => if c = '/' then lastSegAux t [] else lastSegAux t (acc ++ [c])

/-- Model of Python's `s.split('/')[-1]`. -/
def lastSegment (s : String) : String := ⟨lastSegAux s.data []⟩

/-- The directed service-dependency graph: nodes and edges in insertion
order, without duplicates — the iteration order of `networkx` adjacency
dicts.  Node attributes (`add_node(name, **service)`) are dropped: no
code path of the engine reads them. -/
structure Digraph where
  nodes : List String
  edges : List (String × String)
deriving DecidableEq

/-- The empty graph (`nx.DiGraph()`). -/
def Digraph.empty : Digraph := ⟨[], []⟩

/-- Model of `add_node`: a repeated addition leaves the order unchanged. -/
def Digraph.addNode (g : Digraph) (n : String) : Digraph :=
  if n ∈ g.nodes then g else { g with nodes := g.nodes ++ [n] }

/-- Model of `add_edge u v`: both endpoints are added as nodes (in that order),
then the edge, deduplicated like the adjacency dict. -/
def Digraph.addEdge (g : Digraph) (u v : String) : Digraph :=
  let g1 := (g.addNode u).addNode v
  if (u, v) ∈ g1.edges then g1 else { g1 with edges := g1.edges ++ [(u, v)] }

/-- One `{name, namespace, dependencies[]}` descriptor; only the fields
the engine reads are kept (`service['name']`,
`service.get('dependencies', [])`). -/
structure ServiceDesc where
  name : String
  dependencies : List String
deriving DecidableEq

/-- One iteration of the loop body of `build_dependency_graph`. -/
def applyService (g : Digraph) (s : ServiceDesc) : Digraph :=
  s.dependencies.foldl (fun acc d => acc.addEdge d s.name) (g.addNode s.name)

/-- Model of `RCAEngine.build_dependency_graph`: NOTE the source never clears
`self.dependency_graph`, it only adds to whatever graph `g` is current. -/
def build_dependency_graph (g : Digraph) (services : List ServiceDesc) : Digraph :=
  services.foldl applyService g

/-- Model of `list(graph.predecessors n)`: direct predecessors in edge-insertion
order. -/
def predsOf (g : Digraph) (n : String) : List String :=
  (g.edges.filter (fun e => e.2 = n)).map (fun e => e.1)

/-- Direct successors of a node, in edge-insertion order. -/
def succsOf (g : Digraph) (n : String) : List String :=
  (g.edges.filter (fun e => e.1 = n)).map (fun e => e.2)

/-- The edge relation of a graph. -/
def edgeRel (g : Digraph) (u v : String) : Prop := (u, v) ∈ g.edges

instance (g : Digraph) : DecidableRel (edgeRel g) :=
  fun u v => inferInstanceAs (Decidable ((u, v) ∈ g.edges))

/-- Breadth-first search level by level; `fuel` bounds the depth. -/
def splAux (g : Digraph) (v : String) :
    Nat → List String → List String → Nat → Option Nat
  | 0, _, _, _ => none
  | fuel + 1, frontier, visited, d =>
    if v ∈ frontier then some d
    else
      let next := ((frontier.flatMap (succsOf g)).filter (fun x => ¬ x ∈ visited)).dedup
      if next.isEmpty then none
      else splAux g v fuel next (visited ++ next) (d + 1)

/-- Model of `nx.shortest_path_length g u v`: number of edges on a shortest
directed path, `none` when no path exists. -/
def shortest_path_length (g : Digraph) (u v : String) : Option Nat :=
  splAux g v (g.nodes.length + 1) [u] [u] 0

/-- One step of the backward-reachability closure. -/
def ancStep (g : Digraph) (s : List String) : List String :=
  (s ++ s.flatMap (predsOf g)).dedup

/-- Iterated backward-reachability steps. -/
def ancIter (g : Digraph) : Nat → List String → List String
  | 0, s => s
  | n + 1, s => ancIter g n (ancStep g s)

/-- Holds when `u ∈ nx.ancestors g v`: `u` reaches `v` along at least one edge.
Executable via the bounded closure (paths need at most `|nodes|` steps). -/
def isAncestor (g : Digraph) (u v : String) : Prop :=
  u ∈ ancIter g g.nodes.length (predsOf g v)

instance (g : Digraph) (u v : String) : Decidable (isAncestor g u v) :=
  inferInstanceAs (Decidable (u ∈ _))

/-- Holds when `enum` is a possible iteration order of the Python set
`nx.ancestors g s`: it lists each ancestor exactly once.  The set order
is unspecified at run time, so it is a parameter of the model. -/
def validEnum (g : Digraph) (s : String) (enum : List String) : Prop :=
  enum.Nodup ∧ (∀ u ∈ g.nodes, (u ∈ enum ↔ isAncestor g u s)) ∧
    ∀ u ∈ enum, u ∈ g.nodes

instance (g : Digraph) (s : String) (enum : List String) :
    Decidable (validEnum g s enum) :=
  inferInstanceAs (Decidable (_ ∧ _))

/-- The preorder `sorted(..., key=lambda x: x[1])` sorts by: compare
depths only. -/
def depthLE (a b : String × Nat) : Prop := a.2 ≤ b.2

instance : DecidableRel depthLE := fun a b => inferInstanceAs (Decidable (a.2 ≤ b.2))

instance : IsTotal (String × Nat) depthLE := ⟨fun a b => Nat.le_total a.2 b.2⟩

instance : IsTrans (String × Nat) depthLE := ⟨fun _ _ _ => Nat.le_trans⟩

/-- The `depths.items()` list of `get_root_cause_chain`, sorted by depth
with Python's stable sort (ancestors without a path are skipped by the
`except NetworkXNoPath` branch). -/
def chainPairs (g : Digraph) (enum : List String) (service : String) :
    List (String × Nat) :=
  List.insertionSort depthLE
    (enum.filterMap (fun a => (shortest_path_length g a service).map (fun d => (a, d))))

/-- Model of `RCAEngine.get_root_cause_chain`; `enum` is the iteration order of
`list(nx.ancestors(graph, service))`. -/
def get_root_cause_chain (g : Digraph) (enum : List String) (service : String) :
    List String :=
  if service ∈ g.nodes then (chainPairs g enum service).map (fun p => p.1)
  else []

/-- One row of the logs table; `Option` marks a cell that
`row.get(key, default)` would replace by its default. -/
structure LogRow where
  timestamp : TsVal
  service : Option String
  level : Option String
  message : Option String
deriving DecidableEq

/-- One row of the events table. -/
structure EventRow where
  timestamp : TsVal
  etype : Option String
  reason : Option String
  obj : Option String
  message : Option String
deriving DecidableEq

/-- The metrics table: the `timestamp` column plus the metric columns;
a `none` cell is a value `pd.to_numeric(..., errors='coerce')` turns
into NaN (non-numeric or missing). -/
structure MetricsTable where
  timestamps : List TsVal
  cols : List (String × List (Option ℚ))
deriving DecidableEq

/-- The three input collections of `correlate_events`. -/
structure Tables where
  logs : List LogRow
  metrics : MetricsTable
  events : List EventRow
deriving DecidableEq

/-- An anomaly record.  The source stores `threshold = mean + 3·std`
(an irrational); we carry the pair `(mean, var)` instead, from which the
threshold is `mean + 3·√var`. -/
structure MetricAnomaly where
  timestamp : TsVal
  metric : String
  value : ℚ
  mean : ℚ
  var : ℚ
  severity : String
deriving DecidableEq

/-- A log-error record. -/
structure LogError where
  timestamp : TsVal
  service : String
  message : String
  level : String
  severity : String
deriving DecidableEq

/-- A critical-event record. -/
structure CritEvent where
  timestamp : TsVal
  etype : String
  reason : String
  obj : String
  message : String
  severity : String
deriving DecidableEq

/-- A root-cause hypothesis, the dict built by `_build_root_cause`. -/
structure Hypothesis where
  root_cause : String
  affected_service : String
  event : CritEvent
  related_anomalies : List MetricAnomaly
  related_errors : List LogError
  upstream_services : List String
  confidence : ℚ
  severity : String
  timestamp : TsVal
  recommendation : String
deriving DecidableEq

/-- The per-column body of `_detect_metric_anomalies`.  `values` is the
NaN-filtered array; note the source indexes `metrics.iloc[idx]` with an
index into this *filtered* array.  `v > mean + k·√var` is expressed as
`0 < v - mean ∧ k²·var < (v - mean)²`, equivalent for `var > 0`. -/
def detectColAnomalies (timestamps : List TsVal) (name : String)
    (cells : List (Option ℚ)) : List MetricAnomaly :=
  let values := cells.filterMap id
  if values.isEmpty then []
  else
    let n : ℚ := values.length
    let mean : ℚ := values.sum / n
    let var : ℚ := (values.map (fun v => (v - mean) ^ 2)).sum / n
    if var = 0 then []
    else
      ((List.range values.length).filter
          (fun i => decide (0 < values.getD i 0 - mean ∧
            9 * var < (values.getD i 0 - mean) ^ 2))).map
        (fun i =>
          { timestamp := timestamps.getD i (TsVal.dt 0)
            metric := name
            value := values.getD i 0
            mean := mean
            var := var
            severity :=
              if 0 < values.getD i 0 - mean ∧ 25 * var < (values.getD i 0 - mean) ^ 2
              then "high" else "medium" })

/-- Model of `RCAEngine._detect_metric_anomalies`: every non-`timestamp` column
is scanned; a pandas dataframe is rectangular, so the row index used for
the timestamp lookup is always in range. -/
def detect_metric_anomalies (m : MetricsTable) : List MetricAnomaly :=
  (m.cols.filter (fun c => c.1 != "timestamp")).flatMap
    (fun c => detectColAnomalies m.timestamps c.1 c.2)

/-- The keyword list of `_extract_log_errors`. -/
def error_keywords : List String :=
  ["error", "exception", "failed", "timeout", "crash", "panic", "fatal", "critical"]

/-- Model of `RCAEngine._classify_error_severity` (its argument is already
lower-cased by the caller; `lower()` is idempotent). -/
def classify_error_severity (message : String) : String :=
  let ml := lowerStr message
  if ["fatal", "panic", "crash", "out of memory"].any (fun kw => strContains ml kw)
  then "critical"
  else if ["timeout", "connection refused", "database error"].any
      (fun kw => strContains ml kw)
  then "high"
  else "medium"

/-- Model of `RCAEngine._extract_log_errors`: the keyword loop with `break` is
the same as an `any` test. -/
def extract_log_errors (logs : List LogRow) : List LogError :=
  logs.flatMap (fun r =>
    let msg := lowerStr (r.message.getD "")
    if error_keywords.any (fun kw => strContains msg kw) then
      [{ timestamp := r.timestamp
         service := r.service.getD "unknown"
         message := r.message.getD ""
         level := r.level.getD "error"
         severity := classify_error_severity msg }]
    else [])

/-- The critical reason codes of `_find_critical_events`. -/
def critical_types : List String :=
  ["PodCrashLoopBackOff", "PodEvicted", "NodeNotReady", "FailedScheduling",
   "ImagePullBackOff"]

/-- Model of `RCAEngine._find_critical_events`. -/
def find_critical_events (events : List EventRow) : List CritEvent :=
  events.flatMap (fun r =>
    let t := r.etype.getD ""
    let reason := r.reason.getD ""
    if t = "Warning" ∨ reason ∈ critical_types then
      [{ timestamp := r.timestamp
         etype := t
         reason := reason
         obj := r.obj.getD ""
         message := r.message.getD ""
         severity := if reason ∈ critical_types then "critical" else "high" }]
    else [])

/-- Model of `RCAEngine._generate_recommendation`. -/
def generate_recommendation (event : CritEvent) (anomalies : List MetricAnomaly)
    (errors : List LogError) : String :=
  if strContains event.reason "CrashLoopBackOff" then
    "Check pod logs for startup errors. Verify resource limits and environment variables."
  else if strContains event.reason "Evicted" then
    "Pod was evicted due to resource pressure. Check node capacity and resource requests."
  else if strContains event.reason "NotReady" then
    "Node is not ready. Check kubelet status and node conditions."
  else if strContains event.reason "FailedScheduling" then
    "Pod cannot be scheduled. Check resource availability and node selectors."
  else
    match anomalies with
    | a :: _ =>
      "Metric anomaly detected: " ++ a.metric ++ ". Check service health and resource usage."
    | [] =>
      match errors with
      | e :: _ =>
        "Error in logs: " ++ strTake e.message 100 ++ ". Review application code and dependencies."
      | [] => "Investigate service health and dependencies."

/-- Model of `RCAEngine._build_root_cause`. -/
def build_root_cause (g : Digraph) (event : CritEvent)
    (anomalies : List MetricAnomaly) (errors : List LogError) : Hypothesis :=
  let affected := if strContains event.obj "/" then lastSegment event.obj else "unknown"
  let upstream := if affected ∈ g.nodes then predsOf g affected else []
  let evidence : ℚ := (anomalies.length + errors.length : ℕ)
  let conf0 : ℚ := min (9/10) (3/10 + evidence * (1/10))
  let upstreamErrors := errors.filter (fun e => decide (e.service ∈ upstream))
  let rootConf : String × ℚ :=
    if upstream.isEmpty then (affected, conf0)
    else
      match upstreamErrors with
      | [] => (affected, conf0)
      | e :: _ => (e.service, conf0 + 2/10)
  { root_cause := rootConf.1
    affected_service := affected
    event := event
    related_anomalies := anomalies
    related_errors := errors
    upstream_services := upstream
    confidence := min 1 rootConf.2
    severity := event.severity
    timestamp := event.timestamp
    recommendation := generate_recommendation event anomalies errors }

/-- Python string comparison: lexicographic by code point.  This is
Lean's `String` order spelt on the character lists, so that it is
kernel-computable. -/
def pyStrLT (s t : String) : Prop := s.data < t.data

instance : DecidableRel pyStrLT := fun s t =>
  inferInstanceAs (Decidable (s.data < t.data))

/-- Python comparison of the sort key `(severity, confidence)`:
lexicographic, with the severity compared as a raw string. -/
def sevConfLT (x y : String × ℚ) : Prop :=
  pyStrLT x.1 y.1 ∨ (x.1 = y.1 ∧ x.2 < y.2)

instance : DecidableRel sevConfLT := fun x y =>
  inferInstanceAs (Decidable (pyStrLT x.1 y.1 ∨ (x.1 = y.1 ∧ x.2 < y.2)))

/-- The preorder realising `sorted(..., key=..., reverse=True)`:
`x` may precede `y` when its key is not strictly smaller. -/
def hypGE (x y : Hypothesis) : Prop :=
  ¬ sevConfLT (x.severity, x.confidence) (y.severity, y.confidence)

instance : DecidableRel hypGE := fun x y =>
  inferInstanceAs
    (Decidable (¬ sevConfLT (x.severity, x.confidence) (y.severity, y.confidence)))

/-- Model of `self.temporal_window = timedelta(minutes=5)`, in seconds. -/
def temporal_window : Int := 300

/-- The three in-place `pd.to_datetime` column assignments at the top of
`correlate_events`: only the timestamp columns change. -/
def convertTables (parse : String → Int) (t : Tables) : Tables :=
  { logs := t.logs.map (fun r => { r with timestamp := convertTs parse r.timestamp })
    metrics := { t.metrics with
                 timestamps := t.metrics.timestamps.map (convertTs parse) }
    events := t.events.map (fun r => { r with timestamp := convertTs parse r.timestamp }) }

/-- Holds when `window_start <= ts <= window_end` for an event at `evTime`. -/
def inWindow (parse : String → Int) (evTime : Int) (ts : TsVal) : Prop :=
  evTime - temporal_window ≤ tsVal parse ts ∧ tsVal parse ts ≤ evTime + temporal_window

instance (parse : String → Int) (evTime : Int) (ts : TsVal) :
    Decidable (inWindow parse evTime ts) :=
  inferInstanceAs (Decidable (_ ∧ _))

/-- Model of `RCAEngine.correlate_events`.  The first component of the result is
the state of the three input collections after the call (the in-place
timestamp conversion), the second the returned hypothesis list. -/
def correlate_events (parse : String → Int) (g : Digraph) (t : Tables) :
    Tables × List Hypothesis :=
  let t' := convertTables parse t
  let metric_anomalies := detect_metric_anomalies t'.metrics
  let log_errors := extract_log_errors t'.logs
  let critical_events := find_critical_events t'.events
  let root_causes := critical_events.flatMap (fun ev =>
    let et := tsVal parse ev.timestamp
    let related_anomalies :=
      metric_anomalies.filter (fun a => decide (inWindow parse et a.timestamp))
    let related_errors :=
      log_errors.filter (fun e => decide (inWindow parse et e.timestamp))
    if related_anomalies.isEmpty ∧ related_errors.isEmpty then []
    else [build_root_cause g ev related_anomalies related_errors])
  (t', List.insertionSort hypGE root_causes)

/-- Modelled from the spec: the explicit numeric severity ordinal the
specification mandates for ranking (`critical=3, high=2, medium=1,
low=0`), used to state what the sort order of `correlate_events` should
be according to claim C1. -/
def sevRank : String → ℕ
  | "critical" => 3
  | "high" => 2
  | "medium" => 1
  | _ => 0

/-- Holds when `g` is contained in `g'` (nodes and edges). -/
def subgraphOf (g g' : Digraph) : Prop :=
  (∀ n ∈ g.nodes, n ∈ g'.nodes) ∧ ∀ e ∈ g.edges, e ∈ g'.edges

/-! Concrete instances used by counterexamples and witnesses. -/

/-- A fixed `pd.to_datetime` parser for concrete runs. -/
def parse0 : String → Int := fun _ => 0

/-- An event whose reason is in the critical set (severity `critical`). -/
def evRowCrit : EventRow :=
  { timestamp := .dt 0, etype := some "Warning", reason := some "PodCrashLoopBackOff",
    obj := some "pod/x", message := some "" }

/-- A plain warning event (severity `high`). -/
def evRowWarn : EventRow :=
  { timestamp := .dt 1000, etype := some "Warning", reason := some "OtherReason",
    obj := some "pod/y", message := some "" }

/-- A log error near `evRowCrit`. -/
def logRowX : LogRow :=
  { timestamp := .dt 0, service := some "x", level := some "error",
    message := some "error a" }

/-- A log error near `evRowWarn`. -/
def logRowY : LogRow :=
  { timestamp := .dt 1000, service := some "y", level := some "error",
    message := some "error b" }

/-- Input producing one `critical` and one `high` hypothesis with equal
confidence. -/
def tablesSort : Tables :=
  { logs := [logRowX, logRowY], metrics := { timestamps := [], cols := [] },
    events := [evRowCrit, evRowWarn] }

/-- A metrics table whose first `cpu` cell is non-numeric (filtered out
as NaN), followed by ten samples of 0 and one anomalous sample of 10 in
the row with timestamp 11. -/
def metricsMisaligned : MetricsTable :=
  { timestamps := (List.range 12).map (fun k => TsVal.dt k),
    cols := [("cpu", none :: (List.replicate 10 (some 0) ++ [some 10]))] }

/-- The anomaly record the extractor emits on `metricsMisaligned`. -/
def misalignedRec : MetricAnomaly :=
  { timestamp := .dt 10, metric := "cpu", value := 10, mean := 10 / 11,
    var := 1000 / 121, severity := "medium" }

/-- Topology `db ← api` of the spec scenario. -/
def gScen : Digraph :=
  build_dependency_graph Digraph.empty [⟨"db", []⟩, ⟨"api", ["db"]⟩]

/-- Topology where `t` depends on `z` and on `a`: two ancestors at equal
depth. -/
def gTie : Digraph := build_dependency_graph Digraph.empty [⟨"t", ["z", "a"]⟩]

/-- Chain topology `a → b → c` (`c` depends on `b` depends on `a`). -/
def gChain : Digraph :=
  build_dependency_graph Digraph.empty [⟨"a", []⟩, ⟨"b", ["a"]⟩, ⟨"c", ["b"]⟩]

/-- An event whose object resolves to service `c` of `gChain`. -/
def evRowC : EventRow :=
  { timestamp := .dt 0, etype := some "Warning", reason := some "R",
    obj := some "pod/c", message := some "" }

/-- A log error inside the window of `evRowC`. -/
def logRowC : LogRow :=
  { timestamp := .dt 0, service := some "c", level := some "error",
    message := some "error c" }

/-- Input emitting one hypothesis for service `c` against `gChain`. -/
def tablesChain : Tables :=
  { logs := [logRowC], metrics := { timestamps := [], cols := [] },
    events := [evRowC] }

/-- Two service lists with disjoint topologies. -/
def svcListA : List ServiceDesc := [⟨"a", []⟩]

/-- See `svcListA`. -/
def svcListB : List ServiceDesc := [⟨"b", []⟩]

/-- An input whose logs table still holds a raw (string) timestamp. -/
def tablesRawTs : Tables :=
  { logs := [{ timestamp := .raw "2024-01-01T00:00:00", service := none,
               level := none, message := none }],
    metrics := { timestamps := [], cols := [] }, events := [] }

/-- A warning event at time 1000. -/
def evRowEdge : EventRow :=
  { timestamp := .dt 1000, etype := some "Warning", reason := some "X",
    obj := some "pod/svc", message := some "" }

/-- The critical-event record extracted from `evRowEdge`. -/
def evEdge : CritEvent :=
  { timestamp := .dt 1000, etype := "Warning", reason := "X", obj := "pod/svc",
    message := "", severity := "high" }

/-- A log error exactly at the right window endpoint `t + 300`. -/
def logRowEdge : LogRow :=
  { timestamp := .dt 1300, service := some "db", level := some "warn",
    message := some "timeout calling db" }

/-- One event plus one error record exactly at the window endpoint. -/
def tablesEdge : Tables :=
  { logs := [logRowEdge], metrics := { timestamps := [], cols := [] },
    events := [evRowEdge] }

/-! Helper lemmas about the graph store. -/

theorem edges_addNode (g : Digraph) (n : String) : (g.addNode n).edges = g.edges := by
  unfold Digraph.addNode
  split <;> rfl

theorem mem_nodes_addNode (g : Digraph) (n m : String) (h : m ∈ g.nodes) :
    m ∈ (g.addNode n).nodes := by
  unfold Digraph.addNode
  split
  · exact h
  · exact List.mem_append_left _ h

theorem self_mem_nodes_addNode (g : Digraph) (n : String) : n ∈ (g.addNode n).nodes := by
  unfold Digraph.addNode
  split
  · assumption
  · exact List.mem_append_right _ (List.mem_singleton.mpr rfl)

theorem nodes_addEdge (g : Digraph) (u v : String) :
    (g.addEdge u v).nodes = ((g.addNode u).addNode v).nodes := by
  simp only [Digraph.addEdge]
  split <;> rfl

theorem mem_nodes_addEdge (g : Digraph) (u v m : String) (h : m ∈ g.nodes) :
    m ∈ (g.addEdge u v).nodes := by
  rw [nodes_addEdge]
  exact mem_nodes_addNode _ _ _ (mem_nodes_addNode _ _ _ h)

theorem left_mem_nodes_addEdge (g : Digraph) (u v : String) :
    u ∈ (g.addEdge u v).nodes := by
  rw [nodes_addEdge]
  exact mem_nodes_addNode _ _ _ (self_mem_nodes_addNode g u)

theorem mem_edges_addEdge (g : Digraph) (u v : String) (e : String × String)
    (h : e ∈ g.edges) : e ∈ (g.addEdge u v).edges := by
  simp only [Digraph.addEdge]
  split
  · rwa [edges_addNode, edges_addNode]
  · exact List.mem_append_left _ (by rwa [edges_addNode, edges_addNode])

theorem self_mem_edges_addEdge (g : Digraph) (u v : String) :
    (u, v) ∈ (g.addEdge u v).edges := by
  simp only [Digraph.addEdge]
  split
  · assumption
  · exact List.mem_append_right _ (List.mem_singleton.mpr rfl)

theorem subgraphOf_refl (g : Digraph) : subgraphOf g g :=
  ⟨fun _ h => h, fun _ h => h⟩

theorem subgraphOf_trans {g1 g2 g3 : Digraph} (h1 : subgraphOf g1 g2)
    (h2 : subgraphOf g2 g3) : subgraphOf g1 g3 :=
  ⟨fun n hn => h2.1 n (h1.1 n hn), fun e he => h2.2 e (h1.2 e he)⟩

theorem subgraphOf_addNode (g : Digraph) (n : String) : subgraphOf g (g.addNode n) :=
  ⟨fun m hm => mem_nodes_addNode g n m hm, fun e he => by rwa [edges_addNode]⟩

theorem subgraphOf_addEdge (g : Digraph) (u v : String) : subgraphOf g (g.addEdge u v) :=
  ⟨fun m hm => mem_nodes_addEdge g u v m hm, fun e he => mem_edges_addEdge g u v e he⟩

theorem subgraphOf_foldl_addEdge (nm : String) :
    ∀ (deps : List String) (g : Digraph),
      subgraphOf g (deps.foldl (fun acc d => acc.addEdge d nm) g)
  | [], g => subgraphOf_refl g
  | d :: rest, g =>
    subgraphOf_trans (subgraphOf_addEdge g d nm) (subgraphOf_foldl_addEdge nm rest _)

theorem subgraphOf_applyService (g : Digraph) (s : ServiceDesc) :
    subgraphOf g (applyService g s) :=
  subgraphOf_trans (subgraphOf_addNode g s.name)
    (subgraphOf_foldl_addEdge s.name s.dependencies _)

theorem subgraphOf_build (services : List ServiceDesc) :
    ∀ g : Digraph, subgraphOf g (build_dependency_graph g services) := by
  induction services with
  | nil => intro g; exact subgraphOf_refl g
  | cons s rest ih =>
    intro g
    exact subgraphOf_trans (subgraphOf_applyService g s) (ih (applyService g s))

theorem edge_mem_foldl_addEdge (nm d : String) :
    ∀ (deps : List String) (g : Digraph), d ∈ deps →
      (d, nm) ∈ (deps.foldl (fun acc d' => acc.addEdge d' nm) g).edges
  | d' :: rest, g, h => by
    rcases List.mem_cons.mp h with h1 | h1
    · subst h1
      exact (subgraphOf_foldl_addEdge nm rest _).2 _ (self_mem_edges_addEdge g d nm)
    · exact edge_mem_foldl_addEdge nm d rest _ h1

theorem node_mem_foldl_addEdge (nm d : String) :
    ∀ (deps : List String) (g : Digraph), d ∈ deps →
      d ∈ (deps.foldl (fun acc d' => acc.addEdge d' nm) g).nodes
  | d' :: rest, g, h => by
    rcases List.mem_cons.mp h with h1 | h1
    · subst h1
      exact (subgraphOf_foldl_addEdge nm rest _).1 _ (left_mem_nodes_addEdge g d nm)
    · exact node_mem_foldl_addEdge nm d rest _ h1

theorem name_mem_applyService (g : Digraph) (s : ServiceDesc) :
    s.name ∈ (applyService g s).nodes :=
  (subgraphOf_foldl_addEdge s.name s.dependencies _).1 _ (self_mem_nodes_addNode g s.name)

theorem dep_edge_mem_applyService (g : Digraph) (s : ServiceDesc) (d : String)
    (h : d ∈ s.dependencies) : (d, s.name) ∈ (applyService g s).edges :=
  edge_mem_foldl_addEdge s.name d s.dependencies _ h

theorem dep_node_mem_applyService (g : Digraph) (s : ServiceDesc) (d : String)
    (h : d ∈ s.dependencies) : d ∈ (applyService g s).nodes :=
  node_mem_foldl_addEdge s.name d s.dependencies _ h

theorem service_facts_build :
    ∀ (services : List ServiceDesc) (g : Digraph) (s : ServiceDesc), s ∈ services →
      s.name ∈ (build_dependency_graph g services).nodes ∧
      ∀ d ∈ s.dependencies,
        (d, s.name) ∈ (build_dependency_graph g services).edges ∧
        d ∈ (build_dependency_graph g services).nodes
  | s' :: rest, g, s, h => by
    rcases List.mem_cons.mp h with h1 | h1
    · subst h1
      refine ⟨(subgraphOf_build rest _).1 _ (name_mem_applyService g s), fun d hd => ?_⟩
      exact ⟨(subgraphOf_build rest _).2 _ (dep_edge_mem_applyService g s d hd),
        (subgraphOf_build rest _).1 _ (dep_node_mem_applyService g s d hd)⟩
    · exact service_facts_build rest (applyService g s') s h1

theorem mem_predsOf (g : Digraph) (u v : String) :
    u ∈ predsOf g v ↔ (u, v) ∈ g.edges := by
  simp only [predsOf, List.mem_map, List.mem_filter, decide_eq_true_eq]
  constructor
  · rintro ⟨⟨a, b⟩, ⟨hm, he⟩, hf⟩
    dsimp only at he hf
    subst he; subst hf
    exact hm
  · intro hm
    exact ⟨(u, v), ⟨hm, rfl⟩, rfl⟩

/-! Field equations of `build_root_cause` and `correlate_events`. -/

theorem build_root_cause_affected (g : Digraph) (ev : CritEvent)
    (anomalies : List MetricAnomaly) (errors : List LogError) :
    (build_root_cause g ev anomalies errors).affected_service =
      (if strContains ev.obj "/" then lastSegment ev.obj else "unknown") := rfl

theorem build_root_cause_upstream (g : Digraph) (ev : CritEvent)
    (anomalies : List MetricAnomaly) (errors : List LogError) :
    (build_root_cause g ev anomalies errors).upstream_services =
      (if (if strContains ev.obj "/" then lastSegment ev.obj else "unknown") ∈ g.nodes
       then predsOf g (if strContains ev.obj "/" then lastSegment ev.obj else "unknown")
       else []) := rfl

theorem build_root_cause_event (g : Digraph) (ev : CritEvent)
    (anomalies : List MetricAnomaly) (errors : List LogError) :
    (build_root_cause g ev anomalies errors).event = ev := rfl

theorem correlate_fst_eq (parse : String → Int) (g : Digraph) (t : Tables) :
    (correlate_events parse g t).1 = convertTables parse t := rfl

theorem correlate_snd_eq (parse : String → Int) (g : Digraph) (t : Tables) :
    (correlate_events parse g t).2 =
      List.insertionSort hypGE
        ((find_critical_events (convertTables parse t).events).flatMap (fun ev =>
          let ra := (detect_metric_anomalies (convertTables parse t).metrics).filter
            (fun a => decide (inWindow parse (tsVal parse ev.timestamp) a.timestamp))
          let re := (extract_log_errors (convertTables parse t).logs).filter
            (fun e => decide (inWindow parse (tsVal parse ev.timestamp) e.timestamp))
          if ra.isEmpty ∧ re.isEmpty then []
          else [build_root_cause g ev ra re])) := rfl

/-- The window filter is non-empty exactly when some record satisfies
the window predicate. -/
theorem filter_decide_ne_nil_iff {α : Type} (l : List α) (p : α → Prop)
    [DecidablePred p] :
    ¬ ((l.filter (fun a => decide (p a))).isEmpty = true) ↔ ∃ a ∈ l, p a := by
  simp [List.isEmpty_iff, List.filter_eq_nil_iff]

/-- C1. The claim says `correlate` orders hypotheses descending by the
numeric severity rank.  The source sorts on the raw severity string, so
on this input the `high` hypothesis is returned before the `critical`
one even though `critical` has the strictly greater rank: the code
contradicts the intended ranking. -/
theorem c1_lexical_severity_sort_bug :
    ((correlate_events parse0 Digraph.empty tablesSort).2.map (fun h => h.severity))
      = ["high", "critical"] ∧
    sevRank "high" < sevRank "critical" := by decide

/-- C6. At `metricsMisaligned` the extractor emits exactly one anomaly
record carrying timestamp 10, yet the only row of the table whose `cpu`
cell holds the flagged value 10 is the row with timestamp 11: the
record pairs the value with the timestamp of a different row, because
the source indexes the original rows with a position taken from the
NaN-filtered value array. -/
theorem c6_anomaly_timestamp_misaligned :
    detect_metric_anomalies metricsMisaligned = [misalignedRec] ∧
    misalignedRec.timestamp = TsVal.dt 10 ∧
    (((metricsMisaligned.cols.getD 0 ("", [])).2.zip
        metricsMisaligned.timestamps).filter
      (fun rc => rc.1 == some misalignedRec.value)) = [(some 10, TsVal.dt 11)] := by
  decide

/-- C3 counterexample. Building `svcListA` and then `svcListB` does not
equal building `svcListB` on a fresh store: the node `a` from the first
build survives, so `build` does not replace the topology. -/
theorem c3_counterexample_not_replaced :
    build_dependency_graph (build_dependency_graph Digraph.empty svcListA) svcListB ≠
      build_dependency_graph Digraph.empty svcListB := by decide

/-- C3 amended: `build` is additive — every node and edge present
before the call survives it, and every descriptor contributes its node
and its dependency edges. -/
theorem c3_build_is_additive :
    ∀ (g : Digraph) (services : List ServiceDesc),
      (∀ n ∈ g.nodes, n ∈ (build_dependency_graph g services).nodes) ∧
      (∀ e ∈ g.edges, e ∈ (build_dependency_graph g services).edges) ∧
      ∀ s ∈ services, s.name ∈ (build_dependency_graph g services).nodes ∧
        ∀ d ∈ s.dependencies, (d, s.name) ∈ (build_dependency_graph g services).edges := by
  intro g services
  refine ⟨(subgraphOf_build services g).1, (subgraphOf_build services g).2,
    fun s hs => ?_⟩
  obtain ⟨h1, h2⟩ := service_facts_build services g s hs
  exact ⟨h1, fun d hd => (h2 d hd).1⟩

theorem c3_build_is_additive_witness :
    "a" ∈ (build_dependency_graph (build_dependency_graph Digraph.empty svcListA)
      svcListB).nodes ∧
    "b" ∈ (build_dependency_graph (build_dependency_graph Digraph.empty svcListA)
      svcListB).nodes :=
  ⟨(c3_build_is_additive (build_dependency_graph Digraph.empty svcListA) svcListB).1
      "a" (by decide),
   ((c3_build_is_additive (build_dependency_graph Digraph.empty svcListA)
      svcListB).2.2 ⟨"b", []⟩ (by decide)).1⟩

/-- C7 counterexample. An input whose logs table holds a raw string
timestamp is not left unchanged by `correlate`: the call rewrites the
timestamp column in place. -/
theorem c7_counterexample_mutates_input :
    (correlate_events parse0 Digraph.empty tablesRawTs).1 ≠ tablesRawTs := by decide

/-- C7 amended: the only mutation `correlate` performs on its inputs is
the in-place `pd.to_datetime` conversion of the three timestamp
columns; every other cell is preserved, and the hypothesis list is a
function of the inputs and the graph. -/
theorem c7_mutation_is_timestamp_conversion :
    ∀ (parse : String → Int) (g : Digraph) (t : Tables),
      (correlate_events parse g t).1.logs =
        t.logs.map (fun r => { r with timestamp := convertTs parse r.timestamp }) ∧
      (correlate_events parse g t).1.metrics.timestamps =
        t.metrics.timestamps.map (convertTs parse) ∧
      (correlate_events parse g t).1.metrics.cols = t.metrics.cols ∧
      (correlate_events parse g t).1.events =
        t.events.map (fun r => { r with timestamp := convertTs parse r.timestamp }) :=
  fun _ _ _ => ⟨rfl, rfl, rfl, rfl⟩

/-- C2 counterexample. Against the chain `a → b → c`, the emitted
hypothesis for service `c` records `upstream_services = ["b"]` — only
the direct predecessor — although `a` also transitively reaches `c`. -/
theorem c2_counterexample_direct_only :
    ((correlate_events parse0 gChain tablesChain).2.map
      (fun h => h.affected_service)) = ["c"] ∧
    "c" ∈ gChain.nodes ∧
    ((correlate_events parse0 gChain tablesChain).2.map
      (fun h => h.upstream_services)) = [["b"]] ∧
    Relation.TransGen (edgeRel gChain) "a" "c" := by
  refine ⟨by decide, by decide, by decide, ?_⟩
  exact Relation.TransGen.tail
    (Relation.TransGen.single (by decide : edgeRel gChain "a" "b"))
    (by decide : edgeRel gChain "b" "c")

/-- C2 amended: `upstream_services` is exactly the set of DIRECT
predecessors of the affected service (empty when the service is not in
the graph), not the full ancestor set. -/
theorem c2_upstream_is_direct_predecessors :
    ∀ (g : Digraph) (ev : CritEvent) (anomalies : List MetricAnomaly)
      (errors : List LogError) (u : String),
      ((build_root_cause g ev anomalies errors).affected_service ∈ g.nodes →
        (u ∈ (build_root_cause g ev anomalies errors).upstream_services ↔
          (u, (build_root_cause g ev anomalies errors).affected_service) ∈ g.edges)) ∧
      ((build_root_cause g ev anomalies errors).affected_service ∉ g.nodes →
        (build_root_cause g ev anomalies errors).upstream_services = []) := by
  intro g ev anomalies errors u
  rw [build_root_cause_affected, build_root_cause_upstream]
  by_cases h : (if strContains ev.obj "/" then lastSegment ev.obj else "unknown") ∈ g.nodes
  · rw [if_pos h]
    exact ⟨fun _ => mem_predsOf g u _, fun hn => absurd h hn⟩
  · rw [if_neg h]
    exact ⟨fun hc => absurd hc h, fun _ => rfl⟩

theorem c2_upstream_is_direct_predecessors_witness :
    ("b", "c") ∈ gChain.edges ∧
    "b" ∈ (build_root_cause gChain
      { timestamp := .dt 0, etype := "Warning", reason := "R", obj := "pod/c",
        message := "", severity := "high" } [] []).upstream_services :=
  ⟨by decide,
   ((c2_upstream_is_direct_predecessors gChain
      { timestamp := .dt 0, etype := "Warning", reason := "R", obj := "pod/c",
        message := "", severity := "high" } [] [] "b").1 (by decide)).mpr (by decide)⟩

/-- C10. Every name occurring in a dependencies list becomes a node of
the built graph (even without its own descriptor), with the edge to its
dependent, so it is a direct predecessor — hence an upstream service
and an ancestor — of every service that lists it, and membership tests
against the graph succeed for it. -/
theorem c10_dependency_only_nodes_present :
    ∀ (g : Digraph) (services : List ServiceDesc) (s : ServiceDesc) (d : String),
      s ∈ services → d ∈ s.dependencies →
      d ∈ (build_dependency_graph g services).nodes ∧
      (d, s.name) ∈ (build_dependency_graph g services).edges ∧
      d ∈ predsOf (build_dependency_graph g services) s.name ∧
      Relation.TransGen (edgeRel (build_dependency_graph g services)) d s.name := by
  intro g services s d hs hd
  obtain ⟨-, h2⟩ := service_facts_build services g s hs
  obtain ⟨he, hn⟩ := h2 d hd
  exact ⟨hn, he, (mem_predsOf _ _ _).mpr he, Relation.TransGen.single he⟩

theorem c10_dependency_only_nodes_present_witness :
    "a" ∈ (build_dependency_graph Digraph.empty [⟨"b", ["a"]⟩]).nodes ∧
    ("a", "b") ∈ (build_dependency_graph Digraph.empty [⟨"b", ["a"]⟩]).edges ∧
    "a" ∈ predsOf (build_dependency_graph Digraph.empty [⟨"b", ["a"]⟩]) "b" ∧
    Relation.TransGen (edgeRel (build_dependency_graph Digraph.empty [⟨"b", ["a"]⟩]))
      "a" "b" := by
  have h := c10_dependency_only_nodes_present Digraph.empty [⟨"b", ["a"]⟩]
    ⟨"b", ["a"]⟩ "a" (by decide) (by decide)
  exact h

/-- Conversion `pd.to_datetime` is idempotent on a cell. -/
theorem convertTs_idem (parse : String → Int) (tv : TsVal) :
    convertTs parse (convertTs parse tv) = convertTs parse tv := by
  cases tv <;> rfl

/-- Converting the three timestamp columns twice equals converting them
once. -/
theorem convertTables_idem (parse : String → Int) (t : Tables) :
    convertTables parse (convertTables parse t) = convertTables parse t := by
  cases t with
  | mk logs metrics events =>
    cases metrics with
    | mk timestamps cols =>
      simp only [convertTables, List.map_map, Tables.mk.injEq, MetricsTable.mk.injEq]
      refine ⟨?_, ⟨?_, trivial⟩, ?_⟩
      · exact List.map_congr_left (fun r _ => by cases r; simp [Function.comp, convertTs_idem])
      · exact List.map_congr_left (fun tv _ => by simp [Function.comp, convertTs_idem])
      · exact List.map_congr_left (fun r _ => by cases r; simp [Function.comp, convertTs_idem])

/-- C9. Two calls of `correlate` on the same collections return the
same ordered hypothesis list (and the same final input state): the
second call observes the in-place timestamp conversion of the first,
and the conversion is idempotent, so the whole result is unchanged. -/
theorem c9_correlate_deterministic_idempotent :
    ∀ (parse : String → Int) (g : Digraph) (t : Tables),
      correlate_events parse g (correlate_events parse g t).1 =
        correlate_events parse g t := by
  intro parse g t
  rw [correlate_fst_eq]
  unfold correlate_events
  rw [convertTables_idem]

/-- C4. A critical event yields a hypothesis exactly when some
extracted anomaly or error lies in its closed window
`[t - 300, t + 300]`; an event without such evidence contributes
nothing (and the call never fails — the model is a total function). -/
theorem c4_hypothesis_iff_window_evidence :
    ∀ (parse : String → Int) (g : Digraph) (t : Tables) (ev : CritEvent),
      ev ∈ find_critical_events (convertTables parse t).events →
      ((∃ h ∈ (correlate_events parse g t).2, h.event = ev) ↔
        (∃ a ∈ detect_metric_anomalies (convertTables parse t).metrics,
           inWindow parse (tsVal parse ev.timestamp) a.timestamp) ∨
        (∃ e ∈ extract_log_errors (convertTables parse t).logs,
           inWindow parse (tsVal parse ev.timestamp) e.timestamp)) := by
  intro parse g t ev hev
  rw [correlate_snd_eq]
  constructor
  · rintro ⟨h, hmem, hevq⟩
    rw [List.mem_insertionSort, List.mem_flatMap] at hmem
    obtain ⟨ev', hev', hstep⟩ := hmem
    dsimp only at hstep
    by_cases hcond :
        ((detect_metric_anomalies (convertTables parse t).metrics).filter
          (fun a => decide (inWindow parse (tsVal parse ev'.timestamp) a.timestamp))).isEmpty
        ∧ ((extract_log_errors (convertTables parse t).logs).filter
          (fun e => decide (inWindow parse (tsVal parse ev'.timestamp) e.timestamp))).isEmpty
    · rw [if_pos hcond] at hstep
      exact absurd hstep (List.not_mem_nil h)
    · rw [if_neg hcond] at hstep
      have hh := List.mem_singleton.mp hstep
      subst hh
      rw [build_root_cause_event] at hevq
      subst hevq
      rcases not_and_or.mp hcond with h1 | h1
      · exact Or.inl ((filter_decide_ne_nil_iff _ _).mp h1)
      · exact Or.inr ((filter_decide_ne_nil_iff _ _).mp h1)
  · intro hevd
    refine ⟨build_root_cause g ev
        ((detect_metric_anomalies (convertTables parse t).metrics).filter
          (fun a => decide (inWindow parse (tsVal parse ev.timestamp) a.timestamp)))
        ((extract_log_errors (convertTables parse t).logs).filter
          (fun e => decide (inWindow parse (tsVal parse ev.timestamp) e.timestamp))),
      ?_, build_root_cause_event _ _ _ _⟩
    rw [List.mem_insertionSort, List.mem_flatMap]
    refine ⟨ev, hev, ?_⟩
    dsimp only
    have hcnd : ¬ (((detect_metric_anomalies (convertTables parse t).metrics).filter
          (fun a => decide (inWindow parse (tsVal parse ev.timestamp) a.timestamp))).isEmpty
        ∧ ((extract_log_errors (convertTables parse t).logs).filter
          (fun e => decide (inWindow parse (tsVal parse ev.timestamp) e.timestamp))).isEmpty) := by
      rintro ⟨h1, h2⟩
      rcases hevd with ⟨a, ha, hw⟩ | ⟨e, he, hw⟩
      · have hm : a ∈ (detect_metric_anomalies (convertTables parse t).metrics).filter
            (fun a => decide (inWindow parse (tsVal parse ev.timestamp) a.timestamp)) :=
          List.mem_filter.mpr ⟨ha, decide_eq_true hw⟩
        rw [List.isEmpty_iff.mp h1] at hm
        exact absurd hm (List.not_mem_nil a)
      · have hm : e ∈ (extract_log_errors (convertTables parse t).logs).filter
            (fun e => decide (inWindow parse (tsVal parse ev.timestamp) e.timestamp)) :=
          List.mem_filter.mpr ⟨he, decide_eq_true hw⟩
        rw [List.isEmpty_iff.mp h2] at hm
        exact absurd hm (List.not_mem_nil e)
    rw [if_neg hcnd]
    exact List.mem_singleton.mpr rfl

theorem c4_hypothesis_iff_window_evidence_witness :
    evEdge ∈ find_critical_events (convertTables parse0 tablesEdge).events ∧
    ∃ h ∈ (correlate_events parse0 Digraph.empty tablesEdge).2, h.event = evEdge :=
  ⟨by decide,
   (c4_hypothesis_iff_window_evidence parse0 Digraph.empty tablesEdge evEdge
      (by decide)).mpr (Or.inr (by decide))⟩

/-- C5. The confidence of every hypothesis is
`min(0.9, 0.3 + 0.1·evidence_count)`, raised by `0.2` exactly when the
root cause is redirected to an upstream service owning an error record,
then clamped to at most 1; it always lies in `[3/10, 1]`. -/
theorem c5_confidence_formula :
    ∀ (g : Digraph) (ev : CritEvent) (anomalies : List MetricAnomaly)
      (errors : List LogError),
      ((build_root_cause g ev anomalies errors).confidence =
        if ∃ e ∈ errors,
            e.service ∈ (build_root_cause g ev anomalies errors).upstream_services
        then min 1 (min (9/10)
          (3/10 + ((anomalies.length + errors.length : ℕ) : ℚ) * (1/10)) + 2/10)
        else min (9/10)
          (3/10 + ((anomalies.length + errors.length : ℕ) : ℚ) * (1/10))) ∧
      3/10 ≤ (build_root_cause g ev anomalies errors).confidence ∧
      (build_root_cause g ev anomalies errors).confidence ≤ 1 := by
  intro g ev anomalies errors
  unfold build_root_cause
  simp only []
  set c0 : ℚ :=
    min (9/10) (3/10 + ((anomalies.length + errors.length : ℕ) : ℚ) * (1/10)) with hc0
  have base_lo : (3/10 : ℚ) ≤ c0 := by
    rw [hc0]
    refine le_min (by norm_num) ?_
    have h0 : (0:ℚ) ≤ ((anomalies.length + errors.length : ℕ) : ℚ) * (1/10) :=
      mul_nonneg (Nat.cast_nonneg _) (by norm_num)
    linarith
  have base_hi : c0 ≤ 1 := by
    rw [hc0]
    exact le_trans (min_le_left _ _) (by norm_num)
  set aff := (if strContains ev.obj "/" then lastSegment ev.obj else "unknown") with haff
  by_cases hemp : (if aff ∈ g.nodes then predsOf g aff else []).isEmpty
  · rw [if_pos hemp]
    have hnil : (if aff ∈ g.nodes then predsOf g aff else []) = [] :=
      List.isEmpty_iff.mp hemp
    have hnone : ¬ ∃ e ∈ errors,
        e.service ∈ (if aff ∈ g.nodes then predsOf g aff else []) := by
      rintro ⟨e, -, hmem⟩
      rw [hnil] at hmem
      exact absurd hmem (List.not_mem_nil _)
    rw [if_neg hnone]
    dsimp only
    exact ⟨min_eq_right base_hi, le_min (by norm_num) base_lo, min_le_left _ _⟩
  · rw [if_neg hemp]
    cases hfe : errors.filter
        (fun e => decide (e.service ∈ (if aff ∈ g.nodes then predsOf g aff else []))) with
    | nil =>
      have hnone : ¬ ∃ e ∈ errors,
          e.service ∈ (if aff ∈ g.nodes then predsOf g aff else []) := by
        rintro ⟨e, he, hmem⟩
        have hno := List.filter_eq_nil_iff.mp hfe e he
        exact hno (decide_eq_true hmem)
      rw [if_neg hnone]
      dsimp only
      exact ⟨min_eq_right base_hi, le_min (by norm_num) base_lo, min_le_left _ _⟩
    | cons e0 rest =>
      have he0 : e0 ∈ errors.filter
          (fun e => decide (e.service ∈ (if aff ∈ g.nodes then predsOf g aff else []))) := by
        rw [hfe]; exact List.mem_cons_self e0 rest
      obtain ⟨he0m, he0s⟩ := List.mem_filter.mp he0
      have hsome : ∃ e ∈ errors,
          e.service ∈ (if aff ∈ g.nodes then predsOf g aff else []) :=
        ⟨e0, he0m, of_decide_eq_true he0s⟩
      rw [if_pos hsome]
      dsimp only
      refine ⟨rfl, le_min (by norm_num) (by linarith), min_le_left _ _⟩

/-- C8 counterexample. `["z", "a"]` is a legitimate iteration order of
the ancestor set of `t` in `gTie`; both ancestors sit at depth 1, yet
the returned chain is `["z", "a"]`, not the alphabetical `["a", "z"]`
(the source sorts on depth alone, and Python's stable sort keeps the
arbitrary set order on ties). -/
theorem c8_counterexample_tie_not_alphabetical :
    validEnum gTie "t" ["z", "a"] ∧
    get_root_cause_chain gTie ["z", "a"] "t" = ["z", "a"] ∧
    shortest_path_length gTie "z" "t" = some 1 ∧
    shortest_path_length gTie "a" "t" = some 1 ∧
    pyStrLT "a" "z" := by decide

/-- C8 amended: the chain is the ancestor list sorted ascending by
shortest-path depth (ties keep the iteration order of the ancestor set,
which is unspecified), and on the spec scenario `db ← api` the chain of
`api` is exactly `["db"]`. -/
theorem c8_chain_sorted_by_depth :
    (∀ (g : Digraph) (enum : List String) (service : String),
      List.Sorted (fun m n => m ≤ n)
        ((chainPairs g enum service).map (fun p => p.2))) ∧
    (∀ (g : Digraph) (enum : List String) (service : String),
      get_root_cause_chain g enum service =
        if service ∈ g.nodes then (chainPairs g enum service).map (fun p => p.1)
        else []) ∧
    get_root_cause_chain gScen ["db"] "api" = ["db"] := by
  refine ⟨?_, fun g enum service => rfl, by decide⟩
  intro g enum service
  have hs := List.sorted_insertionSort depthLE
    (enum.filterMap (fun a => (shortest_path_length g a service).map (fun d => (a, d))))
  exact List.Pairwise.map _ (fun a b h => h) hs

end RCA
